import Mathlib

/-!
Shallow embedding of the timeline editing engine of the `App.tsx` source
(project model, snap engine, pointer-drag clip mutation, undo/redo history
store, track mute/solo toggles), together with theorems checking the
design-spec claims against it.

Times are JavaScript numbers in the source; they are modelled as `ℚ`.
All arithmetic used by the engine (＋, −, min, max, abs, comparisons) is
exact on the values involved, so `ℚ` reproduces the source's behaviour.
-/

set_option maxRecDepth 100000
set_option maxHeartbeats 1000000

deriving instance DecidableEq for Except

namespace Timeline

/-- `const TOTAL_DURATION = 18` -/
def TOTAL_DURATION : ℚ := 18

/-- `const GRID_STEP = 0.25` -/
def GRID_STEP : ℚ := 1/4

/-- `const SNAP_THRESHOLD_SEC = 0.12` -/
def SNAP_THRESHOLD_SEC : ℚ := 12/100

/-- `const MIN_CLIP = 0.2` -/
def MIN_CLIP : ℚ := 1/5

/-- `const clampTime = (value) => Math.min(Math.max(value, 0), TOTAL_DURATION)` -/
def clampTime (value : ℚ) : ℚ := min (max value 0) TOTAL_DURATION

/-- The `Clip` record of the source.  Presentation-only fields
(`color`, `url`, `assetType`, `waveform`, `thumb`) are omitted: no claim
depends on them and no engine operation reads them.  `mediaDuration` and
`mediaOffset` are optional in the source (`?:`), hence `Option ℚ`. -/
structure Clip where
  id : String
  title : String
  track : String
  start : ℚ
  duration : ℚ
  mediaDuration : Option ℚ := none
  mediaOffset : Option ℚ := none
deriving DecidableEq

/-- The `Marker` record: `{ time, label, color }` (color omitted, unread). -/
structure Marker where
  time : ℚ
  label : String
deriving DecidableEq

/-- `TrackState`: the engine only reads `id`, `mute`, `solo`, `locked`.
`mute`/`solo`/`locked` are optional booleans in the source; `undefined`
behaves exactly like `false` in every use (`!t.mute`, `t.solo && t.mute`,
…), so they are modelled as `Bool`. -/
structure TrackState where
  id : String
  mute : Bool := false
  solo : Bool := false
  locked : Bool := false
deriving DecidableEq

/-- `ProjectState = { tracks, clips, markers }`. -/
structure ProjectState where
  tracks : List TrackState
  clips : List Clip
  markers : List Marker
deriving DecidableEq

/-- `SnapPoint = { time, label }`. -/
structure SnapPoint where
  time : ℚ
  label : String
deriving DecidableEq

/-- The five drag modes of `DragInfo.mode`. -/
inductive DragMode where
  | move
  | trimStart
  | trimEnd
  | slip
  | slide
deriving DecidableEq

/-- `DragInfo` as captured on pointer-down (`startX` is folded into the
per-move `deltaSec`, which the source computes as
`(e.clientX - startX) / pxPerSec`). -/
structure DragInfo where
  id : String
  mode : DragMode
  origStart : ℚ
  origDuration : ℚ
deriving DecidableEq

/-- Stable insertion of a clip into a list sorted ascending by `start`:
an element is placed before the first strictly later start, after equal
starts seen so far. -/
def insertByStart (c : Clip) : List Clip → List Clip
  | [] => [c]
  | d :: rest => if c.start ≤ d.start then c :: d :: rest else d :: insertByStart c rest

/-- `.sort((a, b) => a.start - b.start)`.  `Array.prototype.sort` is
stable (ES2019), and a stable ascending sort by `start` has a unique
result, which this stable insertion sort produces. -/
def sortByStart (l : List Clip) : List Clip := l.foldr insertByStart []

/-- The edge/gap part of `collectSnapPoints`: for each clip (in start
order) push its start and end edges, then, when a predecessor exists and
the gap is at least `MIN_CLIP * 0.8` wide, the gap boundaries. -/
def edgeGapPoints (prev : Option Clip) : List Clip → List SnapPoint
  | [] => []
  | c :: rest =>
    [⟨c.start, "Edge · " ++ c.title⟩, ⟨c.start + c.duration, "Edge · " ++ c.title⟩]
      ++ (match prev with
          | some p =>
            if MIN_CLIP * (8/10) ≤ c.start - (p.start + p.duration) then
              [⟨p.start + p.duration, "Gap start"⟩, ⟨c.start, "Gap end"⟩]
            else []
          | none => [])
      ++ edgeGapPoints (some c) rest

/-- The grid part of `collectSnapPoints`:
`for (let t = 0; t <= TOTAL_DURATION; t += GRID_STEP)` — the floats hit
each multiple of 0.25 exactly, producing t = 0, 0.25, …, 18 (73 points);
`Number(t.toFixed(3))` is the identity on them. -/
def gridPoints : List SnapPoint :=
  (List.range 73).map (fun k => ⟨(k : ℚ) * GRID_STEP, "Grid"⟩)

/-- `collectSnapPoints(trackId, excludeId)`: marker times, then the
excluded-clip-free same-track clips' edges and gap boundaries in start
order, then the fixed grid. -/
def collectSnapPoints (markers : List Marker) (clips : List Clip)
    (trackId excludeId : String) : List SnapPoint :=
  let markerPts := markers.map (fun m => SnapPoint.mk m.time ("Marker · " ++ m.label))
  let trackClips := sortByStart (clips.filter (fun c => c.track == trackId && c.id != excludeId))
  markerPts ++ edgeGapPoints none trackClips ++ gridPoints

/-- The loop body of `snapTime`: fold over the snap points keeping the
strictly closest point seen so far (`d < minDelta`), starting from the
candidate itself with `minDelta = SNAP_THRESHOLD_SEC`. -/
def snapGo (candidate : ℚ) (best : ℚ) (label : Option String) (minDelta : ℚ) :
    List SnapPoint → ℚ × Option String
  | [] => (best, label)
  | s :: rest =>
    if |candidate - s.time| < minDelta then
      snapGo candidate s.time (some s.label) |candidate - s.time| rest
    else
      snapGo candidate best label minDelta rest

/-- `snapTime(candidate, snaps)` returning `{ time, label }`. -/
def snapTime (candidate : ℚ) (snaps : List SnapPoint) : ℚ × Option String :=
  snapGo candidate candidate none SNAP_THRESHOLD_SEC snaps

/-- The runtime error raised by the `slide` branch and both roll-trim
branches of `onMove`: they execute `updatedClips = updatedClips.map(...)`
inside the callback of the very `prev.clips.map(...)` whose result
initialises `let updatedClips`, so the binding is still in its temporal
dead zone and the access throws a `ReferenceError`. -/
inductive JsError where
  | tdzReferenceError
deriving DecidableEq

/-- The `move` branch of `onMove`: clamp, snap, push past siblings when
overlap is disallowed (both pushes applied in sequence on the running
candidate), clamp again. -/
def moveUpdate (allowOverlap : Bool) (snaps : List SnapPoint) (siblings : List Clip)
    (drag : DragInfo) (deltaSec : ℚ) (c : Clip) : Clip :=
  let candidate0 := clampTime (drag.origStart + deltaSec)
  let candidate1 := (snapTime candidate0 snaps).1
  let prevSibling := (siblings.filter (fun s => s.start + s.duration ≤ candidate1)).getLast?
  let nextSibling := siblings.find? (fun s => candidate1 ≤ s.start)
  let candidate2 :=
    if allowOverlap then candidate1
    else match prevSibling with
      | some ps => if candidate1 < ps.start + ps.duration then ps.start + ps.duration + 1/100
                   else candidate1
      | none => candidate1
  let candidate3 :=
    if allowOverlap then candidate2
    else match nextSibling with
      | some ns => if ns.start < candidate2 + c.duration then max 0 (ns.start - c.duration - 1/100)
                   else candidate2
      | none => candidate2
  { c with start := clampTime candidate3 }

/-- The `slip` branch of `onMove`: move the media in-point without
changing clip position/duration.  Note the source clamps the candidate
offset with `clampTime` (to `[0, TOTAL_DURATION]`) before bounding it by
`maxOffset`. -/
def slipUpdate (drag : DragInfo) (deltaSec : ℚ) (c : Clip) : Clip :=
  let mediaDur := c.mediaDuration.getD drag.origDuration
  let maxOffset := max 0 (mediaDur - drag.origDuration)
  let nextOffset := clampTime (c.mediaOffset.getD 0 + deltaSec)
  let boundedOffset := min (max nextOffset 0) maxOffset
  { c with mediaOffset := some boundedOffset, start := drag.origStart,
           duration := drag.origDuration }

/-- The `slide` branch of `onMove`.  After computing its candidate it
unconditionally runs `updatedClips = updatedClips.map(o => …)` while
`updatedClips` is still being initialised, which throws a
`ReferenceError` (temporal dead zone); the computations before the throw
have no observable effect, so the branch is the error alone. -/
def slideUpdate : Except JsError Clip := .error .tdzReferenceError

/-- The plain (non-roll) result of the `trim-start` branch. -/
def trimStartPlain (allowOverlap : Bool) (prevSibling : Option Clip)
    (drag : DragInfo) (snappedStart : ℚ) (c : Clip) : Clip :=
  let newDur := max MIN_CLIP (drag.origDuration - (snappedStart - drag.origStart))
  let boundedStart :=
    if allowOverlap then snappedStart
    else match prevSibling with
      | some ps => max snappedStart (ps.start + ps.duration + 1/100)
      | none => snappedStart
  { c with start := clampTime boundedStart, duration := max MIN_CLIP newDur }

/-- The `trim-start` branch of `onMove`.  With roll mode on and a
preceding sibling, the source computes the symmetric boundary shift and —
its vacuously true minimum-length check passing (`Math.max(minDur, …) >=
minDur` always holds) — reaches `updatedClips = updatedClips.map(...)`,
the temporal-dead-zone access, and throws; otherwise the plain trim-start
logic applies. -/
def trimStartUpdate (allowOverlap rollEdit : Bool) (snaps : List SnapPoint)
    (siblings : List Clip) (drag : DragInfo) (deltaSec : ℚ) (c : Clip) :
    Except JsError Clip :=
  let prevSibling := (siblings.filter (fun s => s.start + s.duration ≤ drag.origStart)).getLast?
  let newStart := clampTime (drag.origStart + deltaSec)
  let snappedStart := (snapTime newStart snaps).1
  match prevSibling with
  | some ps =>
    if rollEdit then
      let deltaBoundary := snappedStart - drag.origStart
      let newPrevDur := max MIN_CLIP (ps.duration + deltaBoundary)
      let newThisDur := max MIN_CLIP (drag.origDuration - deltaBoundary)
      if MIN_CLIP ≤ newPrevDur ∧ MIN_CLIP ≤ newThisDur then
        .error .tdzReferenceError
      else
        .ok (trimStartPlain allowOverlap prevSibling drag snappedStart c)
    else .ok (trimStartPlain allowOverlap prevSibling drag snappedStart c)
  | none => .ok (trimStartPlain allowOverlap prevSibling drag snappedStart c)

/-- The plain (non-roll) result of the `trim-end` branch. -/
def trimEndPlain (allowOverlap : Bool) (nextSibling : Option Clip)
    (snaps : List SnapPoint) (drag : DragInfo) (newDur0 : ℚ) (c : Clip) : Clip :=
  let newDur1 :=
    match nextSibling with
    | some ns => if allowOverlap then newDur0 else min newDur0 (ns.start - drag.origStart - 1/100)
    | none => newDur0
  let newDur2 := min newDur1 (TOTAL_DURATION - drag.origStart)
  let newDur3 := max MIN_CLIP newDur2
  let snappedEnd := (snapTime (drag.origStart + newDur3) snaps).1
  let newDur4 := max MIN_CLIP (snappedEnd - drag.origStart)
  { c with duration := newDur4 }

/-- The `trim-end` branch of `onMove`.  As with trim-start, roll mode with
a following sibling passes its vacuously true check and throws at the
temporal-dead-zone access; otherwise the plain trim-end logic applies. -/
def trimEndUpdate (allowOverlap rollEdit : Bool) (snaps : List SnapPoint)
    (siblings : List Clip) (drag : DragInfo) (deltaSec : ℚ) (c : Clip) :
    Except JsError Clip :=
  let newDur0 := max MIN_CLIP (drag.origDuration + deltaSec)
  let nextSibling := siblings.find? (fun s => drag.origStart ≤ s.start)
  match nextSibling with
  | some ns =>
    if rollEdit then
      let snappedEnd := (snapTime (drag.origStart + newDur0) snaps).1
      let deltaBoundary := snappedEnd - (drag.origStart + drag.origDuration)
      let newNextDur := max MIN_CLIP (ns.duration - deltaBoundary)
      if MIN_CLIP ≤ newNextDur then
        .error .tdzReferenceError
      else
        .ok (trimEndPlain allowOverlap nextSibling snaps drag newDur0 c)
    else .ok (trimEndPlain allowOverlap nextSibling snaps drag newDur0 c)
  | none => .ok (trimEndPlain allowOverlap nextSibling snaps drag newDur0 c)

/-- `Array.prototype.map` whose callback may throw: elements are processed
left to right and the first thrown error aborts the whole map. -/
def mapExcept (f : α → Except ε β) : List α → Except ε (List β)
  | [] => .ok []
  | a :: as =>
    match f a with
    | .error e => .error e
    | .ok b =>
      match mapExcept f as with
      | .error e => .error e
      | .ok bs => .ok (b :: bs)

/-- The per-clip body of the ripple block: clips on the dragged track,
other than the dragged clip, whose start is at or past the pivot are
shifted (through `clampTime`) by the dragged clip's start delta (move) or
duration delta (trims; slip's deltas are both zero). -/
def rippleClip (mode : DragMode) (trackId : String) (drag : DragInfo)
    (delta deltaDur : ℚ) (c : Clip) : Clip :=
  if c.id == drag.id || c.track != trackId then c
  else if mode == DragMode.move then
    if drag.origStart ≤ c.start then { c with start := clampTime (c.start + delta) } else c
  else
    let pivot := drag.origStart + (if mode == DragMode.trimStart then 0 else drag.origDuration)
    if pivot ≤ c.start then { c with start := clampTime (c.start + deltaDur) } else c

/-- The ripple block of `onMove`, applied to the already-updated clip list
when ripple mode is on and the dragged clip is present. -/
def rippleApply (mode : DragMode) (trackId : String) (drag : DragInfo)
    (moved : Clip) (l : List Clip) : List Clip :=
  l.map (rippleClip mode trackId drag (moved.start - drag.origStart)
    (moved.duration - drag.origDuration))

/-- The whole ripple block (`if (rippleEdit && moved) { ... }`): when
ripple mode is on and the dragged clip is found in the updated list, apply
the per-clip ripple shift; otherwise leave the list alone. -/
def applyRipple (rippleEdit : Bool) (mode : DragMode) (trackId : String)
    (drag : DragInfo) (l : List Clip) : List Clip :=
  if rippleEdit then
    match l.find? (fun c => c.id == drag.id) with
    | some moved => rippleApply mode trackId drag moved l
    | none => l
  else l

/-- One `onMove` pointer-move update (the `dragRef.current` branch of the
source's `onMove` handler): find the dragged clip, collect snap points and
same-track siblings, rewrite the clip per drag mode, then apply the
ripple block; committed with `push:false`, i.e. the project value is
replaced without touching history.  The source reads `project.clips` for
the dragged clip/snaps/siblings and `prev` inside the state updater; for
a single pointer-move from a settled render these are the same value `p`.
The result is `Except` because the slide and roll paths throw (temporal
dead zone, see `slideUpdate`). -/
def onMove (allowOverlap rippleEdit rollEdit : Bool) (drag : DragInfo)
    (deltaSec : ℚ) (p : ProjectState) : Except JsError ProjectState :=
  match p.clips.find? (fun c => c.id == drag.id) with
  | none => .ok p
  | some current =>
    let trackId := current.track
    let snaps := collectSnapPoints p.markers p.clips trackId drag.id
    let siblings := sortByStart (p.clips.filter (fun c => c.track == trackId && c.id != drag.id))
    match mapExcept (fun c =>
        if c.id != drag.id then .ok c
        else match drag.mode with
          | .move => .ok (moveUpdate allowOverlap snaps siblings drag deltaSec c)
          | .slip => .ok (slipUpdate drag deltaSec c)
          | .slide => slideUpdate
          | .trimStart => trimStartUpdate allowOverlap rollEdit snaps siblings drag deltaSec c
          | .trimEnd => trimEndUpdate allowOverlap rollEdit snaps siblings drag deltaSec c)
        p.clips with
    | .error e => .error e
    | .ok updated =>
      .ok { p with clips := applyRipple rippleEdit drag.mode trackId drag updated }

/-- The state held by `useHistoryState`: `historyRef.current` (the snapshot
list), `pointerRef.current`, and the rendered React state.  Every state
reachable through the operations below keeps `pointer < history.length`;
the `getD` fallbacks used where the source indexes the array never matter
on such states. -/
structure HistoryState (T : Type) where
  history : List T
  pointer : Nat
  state : T
deriving DecidableEq

/-- Initial state: `useState(initial)`, `historyRef = [initial]`,
`pointerRef = 0`. -/
def mkHistory (initial : T) : HistoryState T :=
  { history := [initial], pointer := 0, state := initial }

/-- `const HISTORY_LIMIT = 80` (the `limit = 80` default of
`useHistoryState`). -/
def HISTORY_LIMIT : Nat := 80

/-- `commit(updater, { push })`: compute the next value from the rendered
state; if pushing, truncate forward history after the pointer, append the
new snapshot, evict the oldest if over the limit (`shift()`), and point at
the end; in all cases the rendered state becomes the new value. -/
def commit (limit : Nat) (updater : T → T) (push : Bool) (h : HistoryState T) :
    HistoryState T :=
  let next := updater h.state
  if push then
    let sliced := h.history.take (h.pointer + 1)
    let nextHistory := sliced ++ [next]
    let trimmed := if limit < nextHistory.length then nextHistory.drop 1 else nextHistory
    { history := trimmed, pointer := trimmed.length - 1, state := next }
  else
    { h with state := next }

/-- `pushCheckpoint()`: append a duplicate of
`historyRef.current[pointerRef.current]` (not the rendered state!) after
truncating forward history, evicting if over the limit; the rendered
state is untouched. -/
def pushCheckpoint (limit : Nat) (h : HistoryState T) : HistoryState T :=
  let current := h.history.getD h.pointer h.state
  let sliced := h.history.take (h.pointer + 1)
  let nextHistory := sliced ++ [current]
  let trimmed := if limit < nextHistory.length then nextHistory.drop 1 else nextHistory
  { h with history := trimmed, pointer := trimmed.length - 1 }

/-- `undo()`: no-op at the start, else move the pointer back and render
that snapshot. -/
def undo (h : HistoryState T) : HistoryState T :=
  if h.pointer = 0 then h
  else { h with pointer := h.pointer - 1,
                state := h.history.getD (h.pointer - 1) h.state }

/-- `redo()`: no-op at the end (`pointer >= history.length - 1`), else move
the pointer forward and render that snapshot. -/
def redo (h : HistoryState T) : HistoryState T :=
  if h.history.length - 1 ≤ h.pointer then h
  else { h with pointer := h.pointer + 1,
                state := h.history.getD (h.pointer + 1) h.state }

/-- `canUndo = pointerRef.current > 0`. -/
def canUndo (h : HistoryState T) : Bool := 0 < h.pointer

/-- `canRedo = pointerRef.current < historyRef.current.length - 1`. -/
def canRedo (h : HistoryState T) : Bool := h.pointer < h.history.length - 1

/-- A batch of `push:false` commits (the per-pointer-move updates of a
drag), applied left to right. -/
def commitNoPushBatch (limit : Nat) (fs : List (T → T)) (h : HistoryState T) :
    HistoryState T :=
  fs.foldl (fun acc f => commit limit f false acc) h

/-- A sequence of values each committed with `push:true` as its own
history entry. -/
def commitEach (limit : Nat) (vs : List T) (h : HistoryState T) : HistoryState T :=
  vs.foldl (fun acc v => commit limit (fun _ => v) true acc) h

/-- `undo()` called `n` times. -/
def undoIter (limit : Nat) : Nat → HistoryState T → HistoryState T
  | 0, h => h
  | n + 1, h => undoIter limit n (undo h)

/-- `redo()` called `n` times. -/
def redoIter (limit : Nat) : Nat → HistoryState T → HistoryState T
  | 0, h => h
  | n + 1, h => redoIter limit n (redo h)

/-- The per-track body of the mute button's `onClick`:
`{ ...t, mute: !t.mute, solo: t.solo && t.mute ? false : t.solo }` — both
conditions read the pre-toggle flags. -/
def trackMuteToggle (t : TrackState) : TrackState :=
  { t with mute := !t.mute, solo := if t.solo && t.mute then false else t.solo }

/-- The per-track body of the solo button's `onClick`:
`{ ...t, solo: !t.solo, mute: t.mute && !t.solo ? false : t.mute }`. -/
def trackSoloToggle (t : TrackState) : TrackState :=
  { t with solo := !t.solo, mute := if t.mute && !t.solo then false else t.mute }

/-- The mute button's full commit: map the toggle over the track list,
touching only the clicked track. -/
def toggleMute (trackId : String) (tracks : List TrackState) : List TrackState :=
  tracks.map (fun t => if t.id == trackId then trackMuteToggle t else t)

/-- The solo button's full commit. -/
def toggleSolo (trackId : String) (tracks : List TrackState) : List TrackState :=
  tracks.map (fun t => if t.id == trackId then trackSoloToggle t else t)

/-- `DEFAULT_TRACKS` (names dropped; flags default to unset). -/
def DEFAULT_TRACKS : List TrackState :=
  [{ id := "v1" }, { id := "v2" }, { id := "a1" }, { id := "a2" }]

/-- `DEFAULT_CLIPS`. -/
def DEFAULT_CLIPS : List Clip :=
  [ { id := "c1", title := "Intro", track := "v1", start := 0, duration := 6 },
    { id := "c2", title := "Scene A", track := "v1", start := 13/2, duration := 8 },
    { id := "c3", title := "Lower Third", track := "v2", start := 67/10, duration := 4 },
    { id := "c4", title := "Chorus", track := "a1", start := 2, duration := 12 },
    { id := "c5", title := "Steps", track := "a2", start := 4, duration := 11/2 } ]

/-- `DEFAULT_MARKERS`. -/
def DEFAULT_MARKERS : List Marker :=
  [⟨2, "Beat drop"⟩, ⟨17/2, "Cut to B-roll"⟩, ⟨12, "Logo hit"⟩]

/-- The default project the app starts from. -/
def defaultProject : ProjectState :=
  { tracks := DEFAULT_TRACKS, clips := DEFAULT_CLIPS, markers := DEFAULT_MARKERS }

/-- Decidable check of the spec's per-clip bounds
`MIN_CLIP ≤ duration ∧ 0 ≤ start ∧ start + duration ≤ TOTAL_DURATION`. -/
def clipsWithinBounds (p : ProjectState) : Bool :=
  p.clips.all (fun c =>
    MIN_CLIP ≤ c.duration && 0 ≤ c.start && c.start + c.duration ≤ TOTAL_DURATION)

/-- Two clips occupy overlapping open time intervals. -/
def clipsOverlap (a b : Clip) : Bool :=
  a.start < b.start + b.duration && b.start < a.start + a.duration

/-- No two distinct clips on the same track overlap. -/
def overlapFree (p : ProjectState) : Bool :=
  decide (p.clips.Pairwise (fun a b => a.track = b.track → clipsOverlap a b = false))

/-- The weakened per-clip bounds that survive every successful drag
update: the claimed `start + duration ≤ TOTAL_DURATION` does not. -/
def WeakBounds (c : Clip) : Prop :=
  MIN_CLIP ≤ c.duration ∧ 0 ≤ c.start ∧ c.start ≤ TOTAL_DURATION

/-- Default snap point used only to state positional facts via `getD`. -/
def dfltSnap : SnapPoint := ⟨0, ""⟩

/-- A two-clip project used to exercise the ripple shift at the timeline
end: clip `a` at the start, clip `b` close to `TOTAL_DURATION`. -/
def rippleClampProject : ProjectState :=
  { tracks := [{ id := "v1" }],
    clips := [ { id := "a", title := "A", track := "v1", start := 0, duration := 1 },
               { id := "b", title := "B", track := "v1", start := 17, duration := 1/2 } ],
    markers := [] }

/-- A one-clip project whose media is much longer than the timeline
(`loadMediaDuration` clamps probed durations to at most 120 s, so such
clips arise from ingest), used to exercise the slip-offset clamp. -/
def slipClampProject : ProjectState :=
  { tracks := [{ id := "v1" }],
    clips := [ { id := "x", title := "X", track := "v1", start := 0, duration := 5,
                 mediaDuration := some 100, mediaOffset := some 50 } ],
    markers := [] }

lemma MIN_CLIP_pos : 0 < MIN_CLIP := by norm_num [MIN_CLIP]

lemma clampTime_nonneg (v : ℚ) : 0 ≤ clampTime v :=
  le_min (le_max_right v 0) (by norm_num [TOTAL_DURATION])

lemma clampTime_le_total (v : ℚ) : clampTime v ≤ TOTAL_DURATION :=
  min_le_right _ _

lemma clampTime_of_bounds {v : ℚ} (h0 : 0 ≤ v) (h1 : v ≤ TOTAL_DURATION) :
    clampTime v = v := by
  unfold clampTime
  rw [max_eq_left h0, min_eq_left h1]

lemma mapExcept_ok_mem {f : α → Except ε β} :
    ∀ {l : List α} {out : List β}, mapExcept f l = .ok out →
    ∀ b ∈ out, ∃ a ∈ l, f a = .ok b := by
  intro l
  induction l with
  | nil =>
    intro out h b hb
    simp only [mapExcept] at h
    cases h
    exact absurd hb (by simp)
  | cons a as ih =>
    intro out h b hb
    simp only [mapExcept] at h
    cases hfa : f a with
    | error e => rw [hfa] at h; cases h
    | ok b0 =>
      rw [hfa] at h
      cases hrest : mapExcept f as with
      | error e => rw [hrest] at h; cases h
      | ok bs =>
        rw [hrest] at h
        cases h
        rcases List.mem_cons.mp hb with hb0 | hbs
        · exact ⟨a, List.mem_cons_self a as, hb0 ▸ hfa⟩
        · obtain ⟨a', ha', hfa'⟩ := ih hrest b hbs
          exact ⟨a', List.mem_cons_of_mem a ha', hfa'⟩

lemma mapExcept_ok_of_forall {f : α → Except ε β} {g : α → β} :
    ∀ (l : List α), (∀ a ∈ l, f a = .ok (g a)) → mapExcept f l = .ok (l.map g) := by
  intro l
  induction l with
  | nil => intro _; rfl
  | cons a as ih =>
    intro h
    simp only [mapExcept, h a (List.mem_cons_self a as),
      ih (fun x hx => h x (List.mem_cons_of_mem a hx)), List.map_cons]

lemma find?_map_of_pres {g : Clip → Clip} (hg : ∀ a, (g a).id = a.id) (i : String) :
    ∀ (l : List Clip),
    (l.map g).find? (fun x => x.id == i) = (l.find? (fun x => x.id == i)).map g := by
  intro l
  induction l with
  | nil => rfl
  | cons a as ih =>
    by_cases h : (a.id == i) = true
    · rw [List.map_cons, List.find?_cons_of_pos as h,
        List.find?_cons_of_pos (as.map g) (by rw [hg a]; exact h)]
      rfl
    · rw [List.map_cons, List.find?_cons_of_neg as h,
        List.find?_cons_of_neg (as.map g) (by rw [hg a]; exact h), ih]

lemma moveUpdate_weakBounds (aOv : Bool) (snaps : List SnapPoint) (sibs : List Clip)
    (drag : DragInfo) (δ : ℚ) (c : Clip) (hd : MIN_CLIP ≤ c.duration) :
    WeakBounds (moveUpdate aOv snaps sibs drag δ c) :=
  ⟨hd, clampTime_nonneg _, clampTime_le_total _⟩

lemma slipUpdate_fields (drag : DragInfo) (δ : ℚ) (c : Clip) :
    (slipUpdate drag δ c).start = drag.origStart ∧
    (slipUpdate drag δ c).duration = drag.origDuration := ⟨rfl, rfl⟩

lemma trimStartPlain_weakBounds (aOv : Bool) (prevSib : Option Clip) (drag : DragInfo)
    (ss : ℚ) (c : Clip) : WeakBounds (trimStartPlain aOv prevSib drag ss c) :=
  ⟨le_max_left _ _, clampTime_nonneg _, clampTime_le_total _⟩

lemma trimStartUpdate_ok_weakBounds {aOv roll : Bool} {snaps : List SnapPoint}
    {sibs : List Clip} {drag : DragInfo} {δ : ℚ} {c b : Clip}
    (h : trimStartUpdate aOv roll snaps sibs drag δ c = .ok b) : WeakBounds b := by
  simp only [trimStartUpdate] at h
  split at h
  all_goals try split at h
  all_goals try split at h
  all_goals first
    | (cases h; exact trimStartPlain_weakBounds _ _ _ _ _)
    | cases h

lemma trimEndPlain_fields (aOv : Bool) (nextSib : Option Clip) (snaps : List SnapPoint)
    (drag : DragInfo) (nd : ℚ) (c : Clip) :
    MIN_CLIP ≤ (trimEndPlain aOv nextSib snaps drag nd c).duration ∧
    (trimEndPlain aOv nextSib snaps drag nd c).start = c.start :=
  ⟨le_max_left _ _, rfl⟩

lemma trimEndUpdate_ok_fields {aOv roll : Bool} {snaps : List SnapPoint}
    {sibs : List Clip} {drag : DragInfo} {δ : ℚ} {c b : Clip}
    (h : trimEndUpdate aOv roll snaps sibs drag δ c = .ok b) :
    MIN_CLIP ≤ b.duration ∧ b.start = c.start := by
  simp only [trimEndUpdate] at h
  split at h
  all_goals try split at h
  all_goals try split at h
  all_goals first
    | (cases h; exact trimEndPlain_fields _ _ _ _ _ _)
    | cases h

lemma rippleClip_weakBounds (mode : DragMode) (trackId : String) (drag : DragInfo)
    (delta deltaDur : ℚ) {u : Clip} (hu : WeakBounds u) :
    WeakBounds (rippleClip mode trackId drag delta deltaDur u) := by
  simp only [rippleClip]
  repeat' split
  all_goals first
    | exact hu
    | exact ⟨hu.1, clampTime_nonneg _, clampTime_le_total _⟩

lemma applyRipple_weakBounds {rip : Bool} {mode : DragMode} {tid : String}
    {drag : DragInfo} {l : List Clip} (hl : ∀ u ∈ l, WeakBounds u) :
    ∀ c ∈ applyRipple rip mode tid drag l, WeakBounds c := by
  intro c hc
  unfold applyRipple at hc
  split at hc
  · split at hc
    · unfold rippleApply at hc
      obtain ⟨u, hul, huc⟩ := List.mem_map.mp hc
      exact huc ▸ rippleClip_weakBounds _ _ _ _ _ (hl u hul)
    · exact hl c hc
  · exact hl c hc

lemma applyRipple_false (mode : DragMode) (tid : String) (drag : DragInfo)
    (l : List Clip) : applyRipple false mode tid drag l = l := rfl

lemma applyRipple_true {mode : DragMode} {tid : String} {drag : DragInfo}
    {l : List Clip} {m : Clip} (h : l.find? (fun c => c.id == drag.id) = some m) :
    applyRipple true mode tid drag l = rippleApply mode tid drag m l := by
  unfold applyRipple
  rw [if_pos rfl, h]

lemma start_le_total_of_bounds {c : Clip} (hd : MIN_CLIP ≤ c.duration)
    (hsd : c.start + c.duration ≤ TOTAL_DURATION) : c.start ≤ TOTAL_DURATION := by
  have := MIN_CLIP_pos
  linarith

lemma commit_noPush (limit : Nat) (f : T → T) (h : HistoryState T) :
    commit limit f false h = { h with state := f h.state } := rfl

lemma commitNoPushBatch_parts (limit : Nat) (fs : List (T → T)) (h : HistoryState T) :
    commitNoPushBatch limit fs h =
      { h with state := fs.foldl (fun a f => f a) h.state } := by
  induction fs generalizing h with
  | nil => rfl
  | cons f fs ih =>
    simp only [commitNoPushBatch, List.foldl_cons] at *
    rw [commit_noPush]
    exact ih _

lemma getD_in_range {l : List α} {n : Nat} (h : n < l.length) (d d' : α) :
    l.getD n d = l.getD n d' := by
  simp [List.getD_eq_getElem?_getD, List.getElem?_eq_getElem h]

lemma getD_eq_getElem {l : List α} {n : Nat} (h : n < l.length) (d : α) :
    l.getD n d = l[n] := by
  simp [List.getD_eq_getElem?_getD, List.getElem?_eq_getElem h]

lemma getLastD_fallback {l : List α} (h : l ≠ []) (a b : α) :
    l.getLastD a = l.getLastD b := by
  rw [List.getLastD_eq_getLast?, List.getLastD_eq_getLast?]
  cases hl : l.getLast? with
  | none => exact absurd (List.getLast?_eq_none_iff.mp hl) h
  | some x => rfl

lemma getD_length_cons (a : α) (l : List α) : (a :: l).getD l.length a = l.getLastD a := by
  induction l generalizing a with
  | nil => rfl
  | cons b l ih =>
    rw [List.getLastD_cons]
    show (b :: l).getD l.length a = l.getLastD b
    rw [getD_in_range (by simp) a b]
    exact ih b

/-- C3 (amended): from any history state whose pointer is in range, after a
batch of `push:false` commits (rendering Q) and a `checkpoint()`, the
rendered state is still Q, a single `undo()` renders the snapshot P that
was at the pointer — and a single `redo()` after that renders P again, not
Q: `pushCheckpoint` duplicates `history[pointer]`, never the rendered
batch result, so Q is not in history. -/
theorem checkpoint_undo_redo_restores_last_snapshot (h : HistoryState T) (fs : List (T → T))
    (hp : h.pointer < h.history.length) :
    (pushCheckpoint HISTORY_LIMIT (commitNoPushBatch HISTORY_LIMIT fs h)).state
        = fs.foldl (fun a f => f a) h.state ∧
    (undo (pushCheckpoint HISTORY_LIMIT (commitNoPushBatch HISTORY_LIMIT fs h))).state
        = h.history.getD h.pointer h.state ∧
    (redo (undo (pushCheckpoint HISTORY_LIMIT (commitNoPushBatch HISTORY_LIMIT fs h)))).state
        = h.history.getD h.pointer h.state := by
  rw [commitNoPushBatch_parts]
  obtain ⟨l, p, s⟩ := h
  simp only at hp ⊢
  set Q := fs.foldl (fun a f => f a) s with hQ
  have hgd : l.getD p s = l[p] := by
    simp [List.getD_eq_getElem?_getD, List.getElem?_eq_getElem hp]
  set P := l.getD p s with hP
  have hlen1 : (l.take (p + 1)).length = p + 1 := by simp [List.length_take]; omega
  have hAp : (l.take (p + 1) ++ [P])[p]? = some P := by
    rw [List.getElem?_append, if_pos (by omega : p < (l.take (p + 1)).length),
      List.getElem?_take, if_pos (by omega : p < p + 1), List.getElem?_eq_getElem hp, hgd]
  have hAp1 : (l.take (p + 1) ++ [P])[p + 1]? = some P := by
    rw [List.getElem?_append_right (by omega)]
    simp [hlen1]
  have hcur : (⟨l, p, Q⟩ : HistoryState T).history.getD (⟨l, p, Q⟩ : HistoryState T).pointer
      (⟨l, p, Q⟩ : HistoryState T).state = P := by
    simp only [hP]
    exact getD_in_range hp Q s
  by_cases hk : HISTORY_LIMIT < p + 2
  · -- eviction: the appended list is trimmed by one; p is then at least 79
    have hp79 : 79 ≤ p := by simp [HISTORY_LIMIT] at hk; omega
    have hstep : pushCheckpoint HISTORY_LIMIT ⟨l, p, Q⟩ =
        ⟨(l.take (p + 1) ++ [P]).drop 1, p, Q⟩ := by
      simp only [pushCheckpoint, hcur]
      have hA : (l.take (p + 1) ++ [P]).length = p + 2 := by simp [hlen1]
      simp [hA, hk]
    rw [hstep]
    have hu : undo (⟨(l.take (p + 1) ++ [P]).drop 1, p, Q⟩ : HistoryState T) =
        ⟨(l.take (p + 1) ++ [P]).drop 1, p - 1, P⟩ := by
      simp only [undo]
      rw [if_neg (by omega : ¬ p = 0)]
      have key : ((l.take (p + 1) ++ [P]).drop 1).getD (p - 1) Q = P := by
        rw [List.getD_eq_getElem?_getD, List.getElem?_drop, (by omega : 1 + (p - 1) = p), hAp]
        rfl
      rw [key]
    rw [hu]
    refine ⟨rfl, rfl, ?_⟩
    simp only [redo]
    rw [if_neg (by simp only [List.length_drop, List.length_append, hlen1,
      List.length_singleton]; omega)]
    have key : ((l.take (p + 1) ++ [P]).drop 1).getD (p - 1 + 1) P = P := by
      rw [List.getD_eq_getElem?_getD, List.getElem?_drop, (by omega : 1 + (p - 1 + 1) = p + 1),
        hAp1]
      rfl
    rw [key]
  · -- no eviction
    have hstep : pushCheckpoint HISTORY_LIMIT ⟨l, p, Q⟩ =
        ⟨l.take (p + 1) ++ [P], p + 1, Q⟩ := by
      simp only [pushCheckpoint, hcur]
      have hA : (l.take (p + 1) ++ [P]).length = p + 2 := by simp [hlen1]
      simp [hA, hk]
    rw [hstep]
    have hu : undo (⟨l.take (p + 1) ++ [P], p + 1, Q⟩ : HistoryState T) =
        ⟨l.take (p + 1) ++ [P], p, P⟩ := by
      simp only [undo]
      rw [if_neg (by omega : ¬ p + 1 = 0)]
      have key : (l.take (p + 1) ++ [P]).getD (p + 1 - 1) Q = P := by
        rw [List.getD_eq_getElem?_getD, (by omega : p + 1 - 1 = p), hAp]
        rfl
      rw [key]
      simp
    rw [hu]
    refine ⟨rfl, rfl, ?_⟩
    simp only [redo]
    rw [if_neg (by simp only [List.length_append, hlen1, List.length_singleton]; omega)]
    have key : (l.take (p + 1) ++ [P]).getD (p + 1) P = P := by
      rw [List.getD_eq_getElem?_getD, hAp1]
      rfl
    exact key

lemma commitEach_shape (limit : Nat) (vs : List T) :
    ∀ (l : List T) (s : T), l ≠ [] → l.getLastD s = s → l.length + vs.length ≤ limit →
    commitEach limit vs ⟨l, l.length - 1, s⟩ =
      ⟨l ++ vs, (l ++ vs).length - 1, (l ++ vs).getLastD s⟩ := by
  induction vs with
  | nil =>
    intro l s hne hs hlen
    simp only [commitEach, List.foldl_nil, List.append_nil]
    rw [hs]
  | cons v vs ih =>
    intro l s hne hs hlen
    have hne2 : l.length ≠ 0 := by simpa [List.length_eq_zero] using hne
    have hlen2 : l.length + (vs.length + 1) ≤ limit := by
      simpa [List.length_cons] using hlen
    have hstep : commit limit (fun _ => v) true ⟨l, l.length - 1, s⟩ =
        ⟨l ++ [v], (l ++ [v]).length - 1, v⟩ := by
      simp only [commit, if_true]
      have htake : l.take (l.length - 1 + 1) = l := by
        rw [(by omega : l.length - 1 + 1 = l.length)]
        exact List.take_length l
      rw [htake]
      have hnotrim : ¬ limit < (l ++ [v]).length := by
        simp only [List.length_append, List.length_singleton]
        omega
      rw [if_neg hnotrim]
    show commitEach limit vs (commit limit (fun _ => v) true ⟨l, l.length - 1, s⟩) = _
    rw [hstep]
    have hrec := ih (l ++ [v]) v (by simp) (List.getLastD_concat v v l)
      (by simp only [List.length_append, List.length_singleton]; omega)
    rw [hrec]
    have hfb : ((l ++ [v]) ++ vs).getLastD v = ((l ++ [v]) ++ vs).getLastD s :=
      getLastD_fallback (by simp) v s
    rw [hfb, List.append_assoc]
    rfl

lemma undoIter_shape (limit : Nat) :
    ∀ (n : Nat) (l : List T) (p : Nat) (s : T), p < l.length → l[p]? = some s → n ≤ p →
    undoIter limit n ⟨l, p, s⟩ = ⟨l, p - n, l.getD (p - n) s⟩ := by
  intro n
  induction n with
  | zero =>
    intro l p s hp hs _
    simp [undoIter, List.getD_eq_getElem?_getD, hs]
  | succ n ih =>
    intro l p s hp hs hn
    show undoIter limit n (undo ⟨l, p, s⟩) = _
    have hstep : undo (⟨l, p, s⟩ : HistoryState T) = ⟨l, p - 1, l.getD (p - 1) s⟩ := by
      simp only [undo]
      rw [if_neg (by omega : ¬ p = 0)]
    rw [hstep]
    have hp1 : p - 1 < l.length := by omega
    have hrec := ih l (p - 1) (l.getD (p - 1) s) hp1
      (by rw [getD_eq_getElem hp1, List.getElem?_eq_getElem hp1]) (by omega)
    rw [hrec]
    have hidx : p - 1 - n = p - (n + 1) := by omega
    rw [hidx]
    have hz : p - (n + 1) < l.length := by omega
    rw [getD_eq_getElem hz, getD_eq_getElem hz]

lemma redoIter_shape (limit : Nat) :
    ∀ (n : Nat) (l : List T) (p : Nat) (s : T), l[p]? = some s → p + n < l.length →
    redoIter limit n ⟨l, p, s⟩ = ⟨l, p + n, l.getD (p + n) s⟩ := by
  intro n
  induction n with
  | zero =>
    intro l p s hs _
    simp [redoIter, List.getD_eq_getElem?_getD, hs]
  | succ n ih =>
    intro l p s hs hn
    show redoIter limit n (redo ⟨l, p, s⟩) = _
    have hstep : redo (⟨l, p, s⟩ : HistoryState T) = ⟨l, p + 1, l.getD (p + 1) s⟩ := by
      simp only [redo]
      rw [if_neg (by omega : ¬ l.length - 1 ≤ p)]
    rw [hstep]
    have hp1 : p + 1 < l.length := by omega
    have hrec := ih l (p + 1) (l.getD (p + 1) s)
      (by rw [getD_eq_getElem hp1, List.getElem?_eq_getElem hp1]) (by omega)
    rw [hrec]
    have hidx : p + 1 + n = p + (n + 1) := by omega
    rw [hidx]
    have hz : p + (n + 1) < l.length := by omega
    rw [getD_eq_getElem hz, getD_eq_getElem hz]

/-- C4: committing each of N edits as its own history entry (N below the
bound of 80, so nothing is evicted) and then calling `undo` N times
returns the rendered project to the initial value, and calling `redo` N
times then restores the final edit, both under structural equality. -/
theorem undo_redo_roundtrip (init : T) (vs : List T) (hn : vs.length < HISTORY_LIMIT) :
    (undoIter HISTORY_LIMIT vs.length
        (commitEach HISTORY_LIMIT vs (mkHistory init))).state = init ∧
    (redoIter HISTORY_LIMIT vs.length
        (undoIter HISTORY_LIMIT vs.length
          (commitEach HISTORY_LIMIT vs (mkHistory init)))).state = vs.getLastD init := by
  have hshape : commitEach HISTORY_LIMIT vs (mkHistory init) =
      ⟨init :: vs, vs.length, vs.getLastD init⟩ := by
    have h1 := commitEach_shape HISTORY_LIMIT vs [init] init (by simp) rfl
      (by simp only [List.length_singleton]; omega)
    have h2 : ([init] ++ vs : List T) = init :: vs := rfl
    rw [h2] at h1
    rw [show (mkHistory init : HistoryState T) = ⟨[init], [init].length - 1, init⟩ from rfl, h1]
    rw [List.getLastD_cons]
    simp
  rw [hshape]
  have hlen : vs.length < (init :: vs).length := by simp
  have hlast : (init :: vs)[vs.length]? = some (vs.getLastD init) := by
    rw [List.getElem?_eq_getElem hlen]
    rw [← getD_eq_getElem hlen init, getD_length_cons]
  have hundo := undoIter_shape HISTORY_LIMIT vs.length (init :: vs) vs.length
    (vs.getLastD init) hlen hlast (le_refl _)
  rw [hundo]
  simp only [Nat.sub_self]
  have hzero : (init :: vs).getD 0 (vs.getLastD init) = init := rfl
  rw [hzero]
  refine ⟨rfl, ?_⟩
  have hredo := redoIter_shape HISTORY_LIMIT vs.length (init :: vs) 0 init (by simp)
    (by simp)
  simp only [Nat.zero_add] at hredo
  rw [hredo]
  show (init :: vs).getD vs.length init = vs.getLastD init
  rw [getD_length_cons]

lemma snapGo_no_improvement (c best : ℚ) (lab : Option String) (md : ℚ)
    (pts : List SnapPoint) (h : ∀ s ∈ pts, md ≤ |c - s.time|) :
    snapGo c best lab md pts = (best, lab) := by
  induction pts with
  | nil => rfl
  | cons s rest ih =>
    rw [snapGo, if_neg (not_lt.mpr (h s (List.mem_cons_self s rest)))]
    exact ih (fun q hq => h q (List.mem_cons_of_mem s hq))

lemma snapGo_first_min (c : ℚ) :
    ∀ (pts : List SnapPoint) (best : ℚ) (lab : Option String) (md : ℚ) (i : Nat),
    i < pts.length →
    |c - (pts.getD i dfltSnap).time| < md →
    (∀ q ∈ pts, |c - (pts.getD i dfltSnap).time| ≤ |c - q.time|) →
    (∀ j, j < i → |c - (pts.getD i dfltSnap).time| < |c - (pts.getD j dfltSnap).time|) →
    snapGo c best lab md pts = ((pts.getD i dfltSnap).time, some (pts.getD i dfltSnap).label) := by
  intro pts
  induction pts with
  | nil => intro best lab md i hi; exact absurd hi (by simp)
  | cons s rest ih =>
    intro best lab md i hi hlt hmin hfirst
    cases i with
    | zero =>
      have hs0 : ((s :: rest).getD 0 dfltSnap) = s := rfl
      rw [hs0] at hlt hmin ⊢
      rw [snapGo, if_pos hlt]
      exact snapGo_no_improvement c s.time (some s.label) |c - s.time| rest
        (fun q hq => hmin q (List.mem_cons_of_mem s hq))
    | succ j =>
      have hsj : ((s :: rest).getD (j + 1) dfltSnap) = rest.getD j dfltSnap := rfl
      rw [hsj] at hlt hmin hfirst ⊢
      have hj : j < rest.length := by simpa using hi
      have hmin' : ∀ q ∈ rest, |c - (rest.getD j dfltSnap).time| ≤ |c - q.time| :=
        fun q hq => hmin q (List.mem_cons_of_mem s hq)
      have hfirst' : ∀ k, k < j →
          |c - (rest.getD j dfltSnap).time| < |c - (rest.getD k dfltSnap).time| := by
        intro k hk
        have := hfirst (k + 1) (by omega)
        simpa using this
      have hhead : |c - (rest.getD j dfltSnap).time| < |c - s.time| := by
        have := hfirst 0 (by omega)
        simpa using this
      by_cases hs : |c - s.time| < md
      · rw [snapGo, if_pos hs]
        exact ih s.time (some s.label) |c - s.time| j hj hhead hmin' hfirst'
      · rw [snapGo, if_neg hs]
        exact ih best lab md j hj hlt hmin' hfirst'

/-- C8: if every snap point is at distance ≥ SNAP_THRESHOLD_SEC (0.12) from
the candidate, `snapTime` returns the candidate with a null label; and if
position `i` holds the first closest point with distance strictly below
the threshold (closest overall, strictly closer than every earlier
point — the fold only improves on strict decrease, so ties keep the first
occurrence), `snapTime` returns that point's time and label. -/
theorem snapTime_closest_first_within_threshold (c : ℚ) (pts : List SnapPoint) (i : Nat) :
    ((∀ s ∈ pts, SNAP_THRESHOLD_SEC ≤ |c - s.time|) → snapTime c pts = (c, none)) ∧
    (i < pts.length →
     |c - (pts.getD i dfltSnap).time| < SNAP_THRESHOLD_SEC →
     (∀ q ∈ pts, |c - (pts.getD i dfltSnap).time| ≤ |c - q.time|) →
     (∀ j, j < i → |c - (pts.getD i dfltSnap).time| < |c - (pts.getD j dfltSnap).time|) →
     snapTime c pts = ((pts.getD i dfltSnap).time, some (pts.getD i dfltSnap).label)) := by
  constructor
  · intro h
    exact snapGo_no_improvement c c none SNAP_THRESHOLD_SEC pts h
  · intro hi hlt hmin hfirst
    exact snapGo_first_min c pts c none SNAP_THRESHOLD_SEC i hi hlt hmin hfirst

/-- C1 (amended): if every clip satisfies the full bounds beforehand and
the drag anchor matches the dragged clip, then after any SUCCESSFUL
pointer-move update every clip satisfies `MIN_CLIP ≤ duration`,
`0 ≤ start` and `start ≤ TOTAL_DURATION`.  The claimed third bound
`start + duration ≤ TOTAL_DURATION` is false (see the counterexample):
move and trim-start clamp only the start into [0, TOTAL_DURATION], so the
end may overhang by up to one clip duration; slide (and roll-trim with an
adjacent sibling) never succeeds at all — it throws. -/
theorem onMove_preserves_weakened_bounds (aOv rip roll : Bool) (drag : DragInfo) (δ : ℚ)
    (p p' : ProjectState)
    (hb : ∀ c ∈ p.clips,
      MIN_CLIP ≤ c.duration ∧ 0 ≤ c.start ∧ c.start + c.duration ≤ TOTAL_DURATION)
    (ha : ∀ c ∈ p.clips, c.id = drag.id →
      c.start = drag.origStart ∧ c.duration = drag.origDuration)
    (hok : onMove aOv rip roll drag δ p = .ok p') :
    ∀ c ∈ p'.clips, MIN_CLIP ≤ c.duration ∧ 0 ≤ c.start ∧ c.start ≤ TOTAL_DURATION := by
  unfold onMove at hok
  cases hfind : p.clips.find? (fun c => c.id == drag.id) with
  | none =>
    rw [hfind] at hok
    cases hok
    intro c hc
    obtain ⟨h1, h2, h3⟩ := hb c hc
    exact ⟨h1, h2, start_le_total_of_bounds h1 h3⟩
  | some cur =>
    rw [hfind] at hok
    simp only at hok
    cases hmap : mapExcept (fun c =>
        if c.id != drag.id then Except.ok c
        else match drag.mode with
          | .move => Except.ok (moveUpdate aOv
              (collectSnapPoints p.markers p.clips cur.track drag.id)
              (sortByStart (p.clips.filter (fun c => c.track == cur.track && c.id != drag.id)))
              drag δ c)
          | .slip => Except.ok (slipUpdate drag δ c)
          | .slide => slideUpdate
          | .trimStart => trimStartUpdate aOv roll
              (collectSnapPoints p.markers p.clips cur.track drag.id)
              (sortByStart (p.clips.filter (fun c => c.track == cur.track && c.id != drag.id)))
              drag δ c
          | .trimEnd => trimEndUpdate aOv roll
              (collectSnapPoints p.markers p.clips cur.track drag.id)
              (sortByStart (p.clips.filter (fun c => c.track == cur.track && c.id != drag.id)))
              drag δ c)
        p.clips with
    | error e =>
      rw [hmap] at hok
      cases hok
    | ok updated =>
      rw [hmap] at hok
      simp only at hok
      have hupd : ∀ u ∈ updated, WeakBounds u := by
        intro u hu
        obtain ⟨a, hal, hfa⟩ := mapExcept_ok_mem hmap u hu
        obtain ⟨hb1, hb2, hb3⟩ := hb a hal
        by_cases hid : (a.id != drag.id) = true
        · rw [if_pos hid] at hfa
          cases hfa
          exact ⟨hb1, hb2, start_le_total_of_bounds hb1 hb3⟩
        · rw [if_neg hid] at hfa
          have hideq : a.id = drag.id := by
            simpa [bne] using hid
          obtain ⟨han1, han2⟩ := ha a hal hideq
          cases hmode : drag.mode with
          | move =>
            rw [hmode] at hfa
            cases hfa
            exact moveUpdate_weakBounds _ _ _ _ _ _ hb1
          | slip =>
            rw [hmode] at hfa
            cases hfa
            refine ⟨?_, ?_, ?_⟩
            · rw [(slipUpdate_fields drag δ a).2, ← han2]; exact hb1
            · rw [(slipUpdate_fields drag δ a).1, ← han1]; exact hb2
            · rw [(slipUpdate_fields drag δ a).1, ← han1]
              exact start_le_total_of_bounds hb1 hb3
          | slide =>
            rw [hmode] at hfa
            cases hfa
          | trimStart =>
            rw [hmode] at hfa
            exact trimStartUpdate_ok_weakBounds hfa
          | trimEnd =>
            rw [hmode] at hfa
            obtain ⟨ht1, ht2⟩ := trimEndUpdate_ok_fields hfa
            exact ⟨ht1, ht2 ▸ hb2, ht2 ▸ start_le_total_of_bounds hb1 hb3⟩
      cases hok
      intro c hc
      exact applyRipple_weakBounds hupd c hc

lemma slipUpdate_start (drag : DragInfo) (δ : ℚ) (c : Clip) :
    (slipUpdate drag δ c).start = drag.origStart := rfl

lemma slipUpdate_duration (drag : DragInfo) (δ : ℚ) (c : Clip) :
    (slipUpdate drag δ c).duration = drag.origDuration := rfl

lemma slipUpdate_id (drag : DragInfo) (δ : ℚ) (c : Clip) :
    (slipUpdate drag δ c).id = c.id := rfl

lemma slipUpdate_anchor (drag : DragInfo) (δ : ℚ) {c : Clip}
    (h1 : c.start = drag.origStart) (h2 : c.duration = drag.origDuration) :
    slipUpdate drag δ c =
      { c with mediaOffset := some (min (max (clampTime (c.mediaOffset.getD 0 + δ)) 0)
          (max 0 (c.mediaDuration.getD drag.origDuration - drag.origDuration))) } := by
  simp only [slipUpdate]
  rw [h1, h2]

lemma rippleClip_slip_id (trackId : String) (drag : DragInfo) {c : Clip}
    (h0 : 0 ≤ c.start) (h1 : c.start ≤ TOTAL_DURATION) :
    rippleClip DragMode.slip trackId drag 0 0 c = c := by
  simp only [rippleClip, show (DragMode.slip == DragMode.move) = false from rfl,
    show (DragMode.slip == DragMode.trimStart) = false from rfl, Bool.false_eq_true,
    if_false]
  split
  · rfl
  · split
    · rw [add_zero, clampTime_of_bounds h0 h1]
    · rfl

/-- C7 (amended): a slip drag update rewrites only the dragged clip, and
sets its `mediaOffset` to the current offset plus the pointer delta
clamped FIRST into `[0, TOTAL_DURATION]` (the source reuses `clampTime`
on the candidate offset) and only then into
`[0, max 0 (mediaDuration − origDuration)]`; start and duration are
unchanged, and every other clip is unchanged (their starts being inside
the timeline, the zero-delta ripple pass rewrites them to themselves). -/
theorem slip_sets_mediaOffset_double_clamp (aOv rip roll : Bool) (drag : DragInfo) (δ : ℚ) (p : ProjectState)
    (hmode : drag.mode = DragMode.slip)
    (ha : ∀ c ∈ p.clips, c.id = drag.id →
      c.start = drag.origStart ∧ c.duration = drag.origDuration)
    (hs : ∀ c ∈ p.clips, 0 ≤ c.start ∧ c.start ≤ TOTAL_DURATION) :
    onMove aOv rip roll drag δ p = .ok { p with clips := p.clips.map (fun c =>
      if c.id == drag.id then
        { c with mediaOffset := some (min (max (clampTime (c.mediaOffset.getD 0 + δ)) 0)
            (max 0 (c.mediaDuration.getD drag.origDuration - drag.origDuration))) }
      else c) } := by
  unfold onMove
  cases hfind : p.clips.find? (fun c => c.id == drag.id) with
  | none =>
    have hnone := List.find?_eq_none.mp hfind
    have hmapid : p.clips.map (fun c =>
        if c.id == drag.id then
          { c with mediaOffset := some (min (max (clampTime (c.mediaOffset.getD 0 + δ)) 0)
              (max 0 (c.mediaDuration.getD drag.origDuration - drag.origDuration))) }
        else c) = p.clips := by
      have hcong : ∀ c ∈ p.clips, (if c.id == drag.id then
          { c with mediaOffset := some (min (max (clampTime (c.mediaOffset.getD 0 + δ)) 0)
              (max 0 (c.mediaDuration.getD drag.origDuration - drag.origDuration))) }
          else c) = id c := by
        intro c hc
        rw [if_neg (hnone c hc)]
        rfl
      rw [List.map_congr_left hcong, List.map_id]
    rw [hmapid]
  | some cur =>
    simp only [hmode]
    have hcur : (cur.id == drag.id) = true :=
      @List.find?_some Clip (fun c => c.id == drag.id) cur p.clips hfind
    have hgok : ∀ a ∈ p.clips,
        (if a.id != drag.id then (Except.ok a : Except JsError Clip)
         else Except.ok (slipUpdate drag δ a)) =
        Except.ok (if a.id == drag.id then slipUpdate drag δ a else a) := by
      intro a _
      by_cases hid : (a.id == drag.id) = true
      · rw [if_neg (by simp [bne, hid]), if_pos hid]
      · rw [if_pos (by simp [bne, hid]), if_neg hid]
    rw [mapExcept_ok_of_forall p.clips hgok]
    refine congrArg (fun cl => Except.ok { p with clips := cl }) ?_
    have hgid : ∀ a : Clip,
        (if a.id == drag.id then slipUpdate drag δ a else a).id = a.id := by
      intro a
      by_cases hid : (a.id == drag.id) = true
      · simp only [if_pos hid, slipUpdate_id]
      · simp only [if_neg hid]
    have htarget : ∀ c ∈ p.clips,
        (if c.id == drag.id then slipUpdate drag δ c else c) =
        (if c.id == drag.id then
          { c with mediaOffset := some (min (max (clampTime (c.mediaOffset.getD 0 + δ)) 0)
              (max 0 (c.mediaDuration.getD drag.origDuration - drag.origDuration))) }
        else c) := by
      intro c hc
      by_cases hid : (c.id == drag.id) = true
      · rw [if_pos hid, if_pos hid]
        obtain ⟨h1, h2⟩ := ha c hc (by simpa using hid)
        exact slipUpdate_anchor drag δ h1 h2
      · rw [if_neg hid, if_neg hid]
    cases rip with
    | false =>
      rw [applyRipple_false]
      rw [List.map_congr_left htarget]
    | true =>
      have hfindm : (p.clips.map (fun a => if a.id == drag.id then slipUpdate drag δ a else a)).find?
          (fun c => c.id == drag.id) = some (slipUpdate drag δ cur) := by
        rw [find?_map_of_pres hgid drag.id p.clips, hfind]
        show some (if cur.id == drag.id then slipUpdate drag δ cur else cur) = _
        rw [if_pos hcur]
      rw [applyRipple_true hfindm]
      simp only [rippleApply, slipUpdate_start, slipUpdate_duration, sub_self]
      rw [List.map_map]
      have hfin : ∀ c ∈ p.clips,
          (rippleClip DragMode.slip cur.track drag 0 0
            (if c.id == drag.id then slipUpdate drag δ c else c)) =
          (if c.id == drag.id then
            { c with mediaOffset := some (min (max (clampTime (c.mediaOffset.getD 0 + δ)) 0)
                (max 0 (c.mediaDuration.getD drag.origDuration - drag.origDuration))) }
          else c) := by
        intro c hc
        by_cases hid : (c.id == drag.id) = true
        · rw [if_pos hid, if_pos hid]
          have hrc : rippleClip DragMode.slip cur.track drag 0 0 (slipUpdate drag δ c) =
              slipUpdate drag δ c := by
            simp only [rippleClip]
            rw [if_pos (by rw [slipUpdate_id]; simp [hid])]
          rw [hrc]
          obtain ⟨h1, h2⟩ := ha c hc (by simpa using hid)
          exact slipUpdate_anchor drag δ h1 h2
        · rw [if_neg hid, if_neg hid]
          obtain ⟨hs0, hs1⟩ := hs c hc
          exact rippleClip_slip_id cur.track drag hs0 hs1
      exact List.map_congr_left hfin

lemma moveUpdate_id (aOv : Bool) (snaps : List SnapPoint) (sibs : List Clip)
    (drag : DragInfo) (δ : ℚ) (c : Clip) :
    (moveUpdate aOv snaps sibs drag δ c).id = c.id := rfl

/-- C6 (amended): with ripple on, a move drag maps every OTHER clip of the
dragged clip's track whose start is ≥ the drag's original start to
`start := clampTime (start + Δ)` where Δ is the dragged clip's actual
start change — i.e. shifted by exactly Δ unless clamping at the timeline
ends truncates the shift (see the counterexample) — while same-track
clips starting earlier and clips of other tracks are left unchanged. -/
theorem ripple_move_shifts_with_clamp (aOv roll : Bool) (drag : DragInfo) (δ : ℚ) (p p' : ProjectState)
    (cur : Clip)
    (hfind : p.clips.find? (fun c => c.id == drag.id) = some cur)
    (hmode : drag.mode = DragMode.move)
    (hok : onMove aOv true roll drag δ p = .ok p') :
    p'.clips = p.clips.map (fun c =>
      if c.id == drag.id then
        moveUpdate aOv (collectSnapPoints p.markers p.clips cur.track drag.id)
          (sortByStart (p.clips.filter (fun x => x.track == cur.track && x.id != drag.id)))
          drag δ c
      else if c.track == cur.track then
        (if drag.origStart ≤ c.start then
          { c with start := clampTime (c.start +
              ((moveUpdate aOv (collectSnapPoints p.markers p.clips cur.track drag.id)
                (sortByStart (p.clips.filter (fun x => x.track == cur.track && x.id != drag.id)))
                drag δ cur).start - drag.origStart)) }
         else c)
      else c) := by
  unfold onMove at hok
  rw [hfind] at hok
  simp only [hmode] at hok
  set snaps := collectSnapPoints p.markers p.clips cur.track drag.id with hsnaps
  set sibs := sortByStart (p.clips.filter (fun x => x.track == cur.track && x.id != drag.id))
    with hsibs
  have hcur : (cur.id == drag.id) = true :=
    @List.find?_some Clip (fun c => c.id == drag.id) cur p.clips hfind
  have hgok : ∀ a ∈ p.clips,
      (if a.id != drag.id then (Except.ok a : Except JsError Clip)
       else Except.ok (moveUpdate aOv snaps sibs drag δ a)) =
      Except.ok (if a.id == drag.id then moveUpdate aOv snaps sibs drag δ a else a) := by
    intro a _
    by_cases hid : (a.id == drag.id) = true
    · rw [if_neg (by simp [bne, hid]), if_pos hid]
    · rw [if_pos (by simp [bne, hid]), if_neg hid]
  rw [mapExcept_ok_of_forall p.clips hgok] at hok
  set updList := p.clips.map (fun a =>
    if a.id == drag.id then moveUpdate aOv snaps sibs drag δ a else a) with hupd
  have hok2 : Except.ok
      { p with clips := applyRipple true DragMode.move cur.track drag updList }
      = Except.ok p' := hok
  have hp' : p' =
      { p with clips := applyRipple true DragMode.move cur.track drag updList } :=
    (Except.ok.inj hok2).symm
  rw [hp']
  show applyRipple true DragMode.move cur.track drag updList = _
  have hgid : ∀ a : Clip,
      (if a.id == drag.id then moveUpdate aOv snaps sibs drag δ a else a).id = a.id := by
    intro a
    by_cases hid : (a.id == drag.id) = true
    · simp only [if_pos hid, moveUpdate_id]
    · simp only [if_neg hid]
  have hfindm : updList.find?
      (fun c => c.id == drag.id) = some (moveUpdate aOv snaps sibs drag δ cur) := by
    rw [hupd, find?_map_of_pres hgid drag.id p.clips, hfind]
    show some (if cur.id == drag.id then _ else cur) = _
    rw [if_pos hcur]
  rw [applyRipple_true hfindm]
  simp only [rippleApply]
  rw [hupd, List.map_map]
  have hfin : ∀ c ∈ p.clips,
      (rippleClip DragMode.move cur.track drag
        ((moveUpdate aOv snaps sibs drag δ cur).start - drag.origStart)
        ((moveUpdate aOv snaps sibs drag δ cur).duration - drag.origDuration)
        (if c.id == drag.id then moveUpdate aOv snaps sibs drag δ c else c)) =
      (if c.id == drag.id then moveUpdate aOv snaps sibs drag δ c
       else if c.track == cur.track then
         (if drag.origStart ≤ c.start then
           { c with start := clampTime (c.start +
               ((moveUpdate aOv snaps sibs drag δ cur).start - drag.origStart)) }
          else c)
       else c) := by
    intro c _
    by_cases hid : (c.id == drag.id) = true
    · rw [if_pos hid, if_pos hid]
      simp only [rippleClip]
      rw [if_pos (by simp [moveUpdate_id, hid])]
    · rw [if_neg hid, if_neg hid]
      by_cases htr : (c.track == cur.track) = true
      · have hcond : (c.id == drag.id || c.track != cur.track) = false := by
          simp [hid, bne, htr]
        simp only [rippleClip, hcond, Bool.false_eq_true, if_false]
        rw [if_pos htr]
        have hmm : (DragMode.move == DragMode.move) = true := rfl
        rw [if_pos hmm]
      · have hcond : (c.id == drag.id || c.track != cur.track) = true := by
          simp [bne, htr]
        simp only [rippleClip, hcond, if_true]
        rw [if_neg htr]
  exact List.map_congr_left hfin

/-- C10: `pushCheckpoint` always leaves the pointer at the last history
entry, so `canRedo` is false immediately afterwards — any forward (redo)
entries that existed before the call are discarded by the
`slice(0, pointer + 1)`. -/
theorem checkpoint_discards_redo (limit : Nat) (h : HistoryState T) :
    (pushCheckpoint limit h).pointer = (pushCheckpoint limit h).history.length - 1 ∧
    canRedo (pushCheckpoint limit h) = false := by
  constructor
  · simp [pushCheckpoint]
  · simp [pushCheckpoint, canRedo]

/-- C9 (amended): the cross-clearing the toggles actually perform, reading
the PRE-toggle flags: enabling solo on a muted track clears its mute
(the claim said mute is untouched); muting a track whose solo is active
does NOT clear solo, so mute∧solo is reachable; unmuting when both flags
are set clears solo; disabling solo when both are set keeps mute; solo
toggling never touches an unset mute, and mute toggling never touches an
unset solo. -/
theorem muteSolo_cross_clear (t : TrackState) :
    (t.mute = true → t.solo = false →
      (trackSoloToggle t).solo = true ∧ (trackSoloToggle t).mute = false) ∧
    (t.mute = false → t.solo = true →
      (trackMuteToggle t).mute = true ∧ (trackMuteToggle t).solo = true) ∧
    (t.mute = true → t.solo = true →
      (trackMuteToggle t).mute = false ∧ (trackMuteToggle t).solo = false) ∧
    (t.mute = true → t.solo = true →
      (trackSoloToggle t).solo = false ∧ (trackSoloToggle t).mute = true) ∧
    (t.mute = false → (trackSoloToggle t).mute = false) ∧
    (t.solo = false → (trackMuteToggle t).solo = false) := by
  obtain ⟨i, m, so, lk⟩ := t
  cases m <;> cases so <;>
    simp [trackMuteToggle, trackSoloToggle]

/-- C9 counterexample: muting track a1 while its solo is active does NOT
clear the solo flag (the claim said it does), and enabling solo on the
muted track a2 DOES clear its mute flag (the claim said it does not). -/
theorem muteSolo_claim_cex :
    (trackMuteToggle { id := "a1", mute := false, solo := true }).solo = true ∧
    (trackSoloToggle { id := "a2", mute := true, solo := false }).mute = false := by
  decide

/-- C9 witness for `muteSolo_cross_clear` at a concrete muted track. -/
theorem muteSolo_cross_clear_witness :
    ((⟨"a2", true, false, false⟩ : TrackState).mute = true ∧
     (⟨"a2", true, false, false⟩ : TrackState).solo = false) ∧
    ((trackSoloToggle ⟨"a2", true, false, false⟩).solo = true ∧
     (trackSoloToggle ⟨"a2", true, false, false⟩).mute = false) :=
  ⟨⟨rfl, rfl⟩, (muteSolo_cross_clear ⟨"a2", true, false, false⟩).1 rfl rfl⟩

/-- C1 counterexample: in the default project (all bounds hold), a single
move drag of c1 by +14 s yields start 14 with duration 6, so
start + duration = 20 > TOTAL_DURATION — the claimed invariant
`start + duration ≤ TOTAL_DURATION` fails; and a slide drag never even
completes: it throws the temporal-dead-zone ReferenceError. -/
theorem onMove_bounds_claim_cex :
    clipsWithinBounds defaultProject = true ∧
    (onMove true false false ⟨"c1", DragMode.move, 0, 6⟩ 14 defaultProject).map
      clipsWithinBounds = .ok false ∧
    onMove false false false ⟨"c1", DragMode.slide, 0, 6⟩ 1 defaultProject
      = .error .tdzReferenceError := by
  refine ⟨by with_unfolding_all decide, by with_unfolding_all decide,
    by with_unfolding_all decide⟩

/-- C1 witness for `onMove_preserves_weakened_bounds`: a successful slip
update on `slipClampProject` keeps the weakened bounds. -/
theorem onMove_preserves_weakened_bounds_witness :
    ((∀ c ∈ slipClampProject.clips,
        MIN_CLIP ≤ c.duration ∧ 0 ≤ c.start ∧ c.start + c.duration ≤ TOTAL_DURATION) ∧
     (∀ c ∈ slipClampProject.clips, c.id = "x" → c.start = 0 ∧ c.duration = 5) ∧
     onMove false false false ⟨"x", DragMode.slip, 0, 5⟩ 10 slipClampProject =
       .ok { tracks := [⟨"v1", false, false, false⟩],
             clips := [⟨"x", "X", "v1", 0, 5, some 100, some 18⟩],
             markers := [] }) ∧
    (∀ c ∈ ({ tracks := [⟨"v1", false, false, false⟩],
              clips := [⟨"x", "X", "v1", 0, 5, some 100, some 18⟩],
              markers := [] } : ProjectState).clips,
      MIN_CLIP ≤ c.duration ∧ 0 ≤ c.start ∧ c.start ≤ TOTAL_DURATION) := by
  refine ⟨⟨by with_unfolding_all decide, by with_unfolding_all decide,
    by with_unfolding_all decide⟩, ?_⟩
  exact onMove_preserves_weakened_bounds false false false ⟨"x", DragMode.slip, 0, 5⟩ 10
    slipClampProject _ (by with_unfolding_all decide) (by with_unfolding_all decide)
    (by with_unfolding_all decide)

/-- C2 failing input: with overlap disallowed, dragging c2 (start 6.5,
duration 8) left by 2.5 s snaps its start to the grid point 4 and leaves
it there — strictly overlapping c1 = [0, 6] on the same track v1 — because
the push logic only considers siblings lying entirely left/right of the
bare candidate (the preceding sibling is chosen among clips whose END is
≤ the candidate, so a candidate inside a sibling is never pushed). -/
theorem move_drag_creates_overlap :
    overlapFree defaultProject = true ∧
    (onMove false false false ⟨"c2", DragMode.move, 13/2, 8⟩ (-(5/2)) defaultProject).map
      overlapFree = .ok false := by
  refine ⟨by with_unfolding_all decide, by with_unfolding_all decide⟩

/-- C5 failing input: with roll mode on, a trim-start drag on c2 (whose
track has the preceding sibling c1) and a trim-end drag on c1 (following
sibling c2) both throw the temporal-dead-zone ReferenceError — the
`updatedClips = updatedClips.map(...)` inside the initializer of
`let updatedClips` — instead of performing the symmetric boundary shift;
the minimum-length rejection can never trigger either, its guard
`Math.max(minDur, x) >= minDur` being vacuously true. -/
theorem roll_trim_throws_tdz :
    onMove false false true ⟨"c2", DragMode.trimStart, 13/2, 8⟩ (-(3/10)) defaultProject
      = .error .tdzReferenceError ∧
    onMove false false true ⟨"c1", DragMode.trimEnd, 0, 6⟩ (1/2) defaultProject
      = .error .tdzReferenceError := by
  refine ⟨by with_unfolding_all decide, by with_unfolding_all decide⟩

/-- C3 counterexample: batch-commit 1 with `push:false` over snapshot 0,
checkpoint, undo — the rendered project is 0 as claimed — but redo yields
0 again, not the batch result 1 the claim promises. -/
theorem checkpoint_redo_claim_cex :
    (commitNoPushBatch HISTORY_LIMIT [fun _ => 1] (mkHistory (0 : ℕ))).state = 1 ∧
    (undo (pushCheckpoint HISTORY_LIMIT
      (commitNoPushBatch HISTORY_LIMIT [fun _ => 1] (mkHistory (0 : ℕ))))).state = 0 ∧
    (redo (undo (pushCheckpoint HISTORY_LIMIT
      (commitNoPushBatch HISTORY_LIMIT [fun _ => 1] (mkHistory (0 : ℕ)))))).state ≠ 1 := by
  refine ⟨by decide, by decide, by decide⟩

/-- C3 witness for `checkpoint_undo_redo_restores_last_snapshot` at the
one-entry initial history over ℕ. -/
theorem checkpoint_undo_redo_witness :
    ((mkHistory (0 : ℕ)).pointer < (mkHistory (0 : ℕ)).history.length) ∧
    ((pushCheckpoint HISTORY_LIMIT (commitNoPushBatch HISTORY_LIMIT [fun n => n + 1]
        (mkHistory (0 : ℕ)))).state
      = [fun n => n + 1].foldl (fun a f => f a) (mkHistory (0 : ℕ)).state ∧
     (undo (pushCheckpoint HISTORY_LIMIT (commitNoPushBatch HISTORY_LIMIT [fun n => n + 1]
        (mkHistory (0 : ℕ))))).state
      = (mkHistory (0 : ℕ)).history.getD (mkHistory (0 : ℕ)).pointer (mkHistory (0 : ℕ)).state ∧
     (redo (undo (pushCheckpoint HISTORY_LIMIT (commitNoPushBatch HISTORY_LIMIT
        [fun n => n + 1] (mkHistory (0 : ℕ)))))).state
      = (mkHistory (0 : ℕ)).history.getD (mkHistory (0 : ℕ)).pointer (mkHistory (0 : ℕ)).state) :=
  ⟨by decide,
   checkpoint_undo_redo_restores_last_snapshot (mkHistory 0) [fun n => n + 1] (by decide)⟩

/-- C4 witness for `undo_redo_roundtrip`: three edits, three undos back to
0, three redos forward to 3. -/
theorem undo_redo_roundtrip_witness :
    (([1, 2, 3] : List ℕ).length < HISTORY_LIMIT) ∧
    ((undoIter HISTORY_LIMIT ([1, 2, 3] : List ℕ).length
        (commitEach HISTORY_LIMIT [1, 2, 3] (mkHistory 0))).state = 0 ∧
     (redoIter HISTORY_LIMIT ([1, 2, 3] : List ℕ).length
        (undoIter HISTORY_LIMIT ([1, 2, 3] : List ℕ).length
          (commitEach HISTORY_LIMIT [1, 2, 3] (mkHistory 0)))).state
      = ([1, 2, 3] : List ℕ).getLastD 0) :=
  ⟨by decide, undo_redo_roundtrip 0 [1, 2, 3] (by decide)⟩

/-- C6 counterexample: in `rippleClampProject`, moving clip a by Δ = +2
with ripple on shifts its same-track sibling b from start 17 to
`clampTime (17 + 2) = 18`, not to 17 + 2 = 19: the shift is clamped, not
"exactly Δ" as claimed. -/
theorem ripple_exact_shift_cex :
    (onMove true true false ⟨"a", DragMode.move, 0, 1⟩ 2 rippleClampProject).map
      (fun q => q.clips.map Clip.start) = .ok [2, 18] ∧ ((17 : ℚ) + 2 ≠ 18) := by
  refine ⟨by with_unfolding_all decide, by with_unfolding_all decide⟩

/-- C6 witness for `ripple_move_shifts_with_clamp` on `rippleClampProject`. -/
theorem ripple_move_shifts_with_clamp_witness :
    (rippleClampProject.clips.find? (fun c => c.id == "a")
        = some ⟨"a", "A", "v1", 0, 1, none, none⟩ ∧
     onMove true true false ⟨"a", DragMode.move, 0, 1⟩ 2 rippleClampProject =
       .ok { tracks := [⟨"v1", false, false, false⟩],
             clips := [⟨"a", "A", "v1", 2, 1, none, none⟩,
                       ⟨"b", "B", "v1", 18, 1/2, none, none⟩],
             markers := [] }) ∧
    ({ tracks := [⟨"v1", false, false, false⟩],
       clips := [⟨"a", "A", "v1", 2, 1, none, none⟩,
                 ⟨"b", "B", "v1", 18, 1/2, none, none⟩],
       markers := [] } : ProjectState).clips =
      rippleClampProject.clips.map (fun c =>
        if c.id == "a" then
          moveUpdate true (collectSnapPoints rippleClampProject.markers
              rippleClampProject.clips "v1" "a")
            (sortByStart (rippleClampProject.clips.filter
              (fun x => x.track == "v1" && x.id != "a")))
            ⟨"a", DragMode.move, 0, 1⟩ 2 c
        else if c.track == "v1" then
          (if (0 : ℚ) ≤ c.start then
            { c with start := clampTime (c.start +
                ((moveUpdate true (collectSnapPoints rippleClampProject.markers
                    rippleClampProject.clips "v1" "a")
                  (sortByStart (rippleClampProject.clips.filter
                    (fun x => x.track == "v1" && x.id != "a")))
                  ⟨"a", DragMode.move, 0, 1⟩ 2
                  ⟨"a", "A", "v1", 0, 1, none, none⟩).start - 0)) }
           else c)
        else c) := by
  refine ⟨⟨by with_unfolding_all decide, by with_unfolding_all decide⟩, ?_⟩
  exact ripple_move_shifts_with_clamp true false ⟨"a", DragMode.move, 0, 1⟩ 2
    rippleClampProject _ ⟨"a", "A", "v1", 0, 1, none, none⟩
    (by with_unfolding_all decide) rfl (by with_unfolding_all decide)

/-- C7 counterexample: slipping the clip of `slipClampProject`
(mediaDuration 100, duration 5, offset 50) right by 10 s sets the offset
to 18 — `clampTime` caps the candidate 60 at TOTAL_DURATION — while the
claimed formula `clamp(offset + Δ, 0, mediaDuration − duration)` gives
60. -/
theorem slip_offset_claim_cex :
    (onMove false false false ⟨"x", DragMode.slip, 0, 5⟩ 10 slipClampProject).map
      (fun q => q.clips.map Clip.mediaOffset) = .ok [some 18] ∧
    min (max ((50 : ℚ) + 10) 0) (100 - 5) = 60 ∧ ((60 : ℚ) ≠ 18) := by
  refine ⟨by with_unfolding_all decide, by with_unfolding_all decide,
    by with_unfolding_all decide⟩

/-- C7 witness for `slip_sets_mediaOffset_double_clamp` on
`slipClampProject`. -/
theorem slip_sets_mediaOffset_double_clamp_witness :
    ((∀ c ∈ slipClampProject.clips, c.id = "x" → c.start = 0 ∧ c.duration = 5) ∧
     (∀ c ∈ slipClampProject.clips, 0 ≤ c.start ∧ c.start ≤ TOTAL_DURATION)) ∧
    onMove false false false ⟨"x", DragMode.slip, 0, 5⟩ 10 slipClampProject =
      .ok { slipClampProject with clips := slipClampProject.clips.map (fun c =>
        if c.id == "x" then
          { c with mediaOffset := some (min (max (clampTime (c.mediaOffset.getD 0 + 10)) 0)
              (max 0 (c.mediaDuration.getD 5 - 5))) }
        else c) } :=
  ⟨⟨by with_unfolding_all decide, by with_unfolding_all decide⟩,
   slip_sets_mediaOffset_double_clamp false false false ⟨"x", DragMode.slip, 0, 5⟩ 10
     slipClampProject rfl (by with_unfolding_all decide) (by with_unfolding_all decide)⟩

/-- C8 witness for `snapTime_closest_first_within_threshold`: the
candidate 1 sits at distance 1/10 from both points; the first one wins
the tie. -/
theorem snapTime_closest_first_witness :
    (0 < ([⟨11/10, "a"⟩, ⟨9/10, "b"⟩] : List SnapPoint).length ∧
     |(1 : ℚ) - (([⟨11/10, "a"⟩, ⟨9/10, "b"⟩] : List SnapPoint).getD 0 dfltSnap).time|
       < SNAP_THRESHOLD_SEC) ∧
    snapTime 1 [⟨11/10, "a"⟩, ⟨9/10, "b"⟩] = (11/10, some "a") := by
  refine ⟨⟨by decide, by with_unfolding_all decide⟩, ?_⟩
  exact (snapTime_closest_first_within_threshold 1 [⟨11/10, "a"⟩, ⟨9/10, "b"⟩] 0).2
    (by decide) (by with_unfolding_all decide) (by with_unfolding_all decide)
    (by intro j hj; exact absurd hj (by omega))

end Timeline
